import Mathlib

/-!
Verification development for the Battle.net local-games plugin
(binary product-database decoder, JSON config decoder, local state engine,
process correlator).

Conventions of the shallow embedding:
* Python byte buffers are `List Nat` (each element < 256 in practice; the
  definitions work on any `Nat`s).
* Python `str` values are represented by their UTF-8 byte sequences
  (`List Nat`).  UTF-8 encoding is injective, and every operation the code
  performs on strings (equality, dictionary keys, list membership) respects
  that bijection, so `bytes.decode('utf-8')` is modelled as a validity check
  that returns the raw bytes unchanged.
* Python exceptions are modelled with `Except PyErr`; an uncaught exception
  is an `Except.error`.
* Python `dict`s are association lists with insert-or-replace semantics
  (`dictInsert`); `dict.get` / `in` are `dictLookup` / key membership.
* Unbounded `while` loops are given an explicit fuel argument; at every call
  site the fuel supplied is strictly larger than the number of iterations the
  loop can perform before either exiting or raising `IndexError` (the loop
  offsets grow by at least 3 resp. 6 per iteration while staying bounded by
  the buffer length), so the fuel-exhausted branch is unreachable.
-/

/-- Python exception classes that the plugin's control flow distinguishes. -/
inductive PyErr where
  | fileNotFound
  | indexError
  | keyError
  | valueError
  | typeError
  | attrError
  | unicodeError
  | runtimeError
  | noSuchProcess
  | accessDenied
  deriving DecidableEq, Repr

/-- Python indexing `data[i]` for a non-negative index: the byte when in
bounds, otherwise an `IndexError` (modelled as `none`). -/
def byteAt (data : List Nat) (i : Nat) : Option Nat :=
  data.get? i

/-- UTF-8 encoding of one Unicode code point (the code points of Lean string
literals are always scalar values, in particular not surrogates). -/
def utf8Char (c : Nat) : List Nat :=
  if c < 0x80 then [c]
  else if c < 0x800 then [0xC0 + c / 64, 0x80 + c % 64]
  else if c < 0x10000 then [0xE0 + c / 4096, 0x80 + (c / 64) % 64, 0x80 + c % 64]
  else [0xF0 + c / 262144, 0x80 + (c / 4096) % 64, 0x80 + (c / 64) % 64, 0x80 + c % 64]

/-- The UTF-8 bytes of a Lean string literal: the representation of the
corresponding Python `str`. -/
def utf8 (s : String) : List Nat :=
  (s.data.map (fun ch => utf8Char ch.toNat)).flatten

/-- Is a continuation byte (`0x80`–`0xBF`)? -/
def utf8cont (b : Nat) : Bool := 0x80 ≤ b ∧ b ≤ 0xBF

/-- Success of Python's strict `bytes.decode('utf-8')`: the byte list is a
well-formed UTF-8 sequence (no overlong forms, no surrogates, max U+10FFFF). -/
def utf8Valid : List Nat → Bool
  | [] => true
  | b :: rest =>
    if b < 0x80 then utf8Valid rest
    else if 0xC2 ≤ b ∧ b ≤ 0xDF then
      match rest with
      | c1 :: r => utf8cont c1 && utf8Valid r
      | [] => false
    else if b = 0xE0 then
      match rest with
      | c1 :: c2 :: r => (0xA0 ≤ c1 ∧ c1 ≤ 0xBF : Bool) && utf8cont c2 && utf8Valid r
      | _ => false
    else if (0xE1 ≤ b ∧ b ≤ 0xEC) ∨ b = 0xEE ∨ b = 0xEF then
      match rest with
      | c1 :: c2 :: r => utf8cont c1 && utf8cont c2 && utf8Valid r
      | _ => false
    else if b = 0xED then
      match rest with
      | c1 :: c2 :: r => (0x80 ≤ c1 ∧ c1 ≤ 0x9F : Bool) && utf8cont c2 && utf8Valid r
      | _ => false
    else if b = 0xF0 then
      match rest with
      | c1 :: c2 :: c3 :: r =>
        (0x90 ≤ c1 ∧ c1 ≤ 0xBF : Bool) && utf8cont c2 && utf8cont c3 && utf8Valid r
      | _ => false
    else if 0xF1 ≤ b ∧ b ≤ 0xF3 then
      match rest with
      | c1 :: c2 :: c3 :: r => utf8cont c1 && utf8cont c2 && utf8cont c3 && utf8Valid r
      | _ => false
    else if b = 0xF4 then
      match rest with
      | c1 :: c2 :: c3 :: r =>
        (0x80 ≤ c1 ∧ c1 ≤ 0x8F : Bool) && utf8cont c2 && utf8cont c3 && utf8Valid r
      | _ => false
    else false

/-- Python `d[k] = v` on a `dict` modelled as an association list: replace in
place when the key is present, append otherwise. -/
def dictInsert {α : Type} (m : List (List Nat × α)) (key : List Nat) (val : α) :
    List (List Nat × α) :=
  if m.any (fun kv => kv.1 = key) then
    m.map (fun kv => if kv.1 = key then (key, val) else kv)
  else m ++ [(key, val)]

/-- Python `d.get(k)` / `d[k]` lookup on a `dict` modelled as an association
list. -/
def dictLookup {α : Type} (m : List (List Nat × α)) (key : List Nat) : Option α :=
  (m.find? (fun kv => kv.1 = key)).map (·.2)

/-! ## Binary database decoder (`parsers.py`, `DatabaseParser`) -/

/-- `definitions.ProductDbInfo`: one decoded product record. -/
structure ProductDbInfo where
  uninstall_tag : List Nat
  ngdp : List Nat := []
  install_path : List Nat := []
  version : List Nat := []
  deriving DecidableEq, Repr

/-- `DatabaseParser._parse_next`: read a one-byte length header at `offset`
(via a slice, so an out-of-range header yields size 0, never an error) and
return the following `size` bytes, UTF-8 decoded (strict decode failure is a
`UnicodeDecodeError`), together with the index one past the field.  The
`int.from_bytes` guard of the source can never fire, since slicing a `bytes`
never raises. -/
def parseNext (sec : List Nat) (offset : Nat) :
    Except PyErr (List Nat × Nat) :=
  let size := ((sec.drop offset).take 1).headD 0
  let endPos := 1 + offset + size
  let obj := (sec.drop (1 + offset)).take size
  if utf8Valid obj then .ok (obj, endPos) else .error .unicodeError

/-- The `while section[offset + 2] != 74` loop inside
`DatabaseParser._skip_unused_sections`: skip per-locale entries until the
sentinel byte 74 appears, raising `IndexError` when the probe runs off the
section.  Each pass advances `offset` by at least 6, so the fuel supplied by
`skipUnusedSections` is never exhausted. -/
def skipLangLoop (sec : List Nat) : Nat → Nat → Except PyErr Nat
  | 0, _ => .error .indexError
  | fuel + 1, offset =>
    match byteAt sec (offset + 2) with
    | none => .error .indexError
    | some b =>
      if b = 74 then .ok offset
      else
        match parseNext sec (offset + 5) with
        | .error e => .error e
        | .ok (_, o') => skipLangLoop sec fuel o'

/-- `DatabaseParser._skip_unused_sections`: walk the locale block and the two
extension-detected gaps, returning the offset just before the version field's
11-byte gap. -/
def skipUnusedSections (offset : Nat) (sec : List Nat) : Except PyErr Nat := do
  let (_, o1) ← parseNext sec (offset + 1)    -- area_code
  match byteAt sec (o1 + 3) with
  | none => .error .indexError
  | some flag => do
    let o5 ←
      if flag ≠ 0 then do
        let (_, o2) ← parseNext sec (o1 + 7)  -- lang subtitles
        let (_, o3) ← parseNext sec (o2 + 1)  -- lang voiceover
        let (_, o4) ← parseNext sec (o3 + 3)  -- lang ???
        skipLangLoop sec (sec.length + 1) o4
      else
        pure (o1 + 8)
    let (_, o6) ← parseNext sec (o5 + 7)      -- POL
    let (_, o7) ← parseNext sec (o6 + 1)      -- PL
    let (_, o8) ← parseNext sec (o7 + 1)      -- internal_name
    let o9 := o8 + 2
    match byteAt sec o9 with
    | none => .error .indexError
    | some b1 => do
      let o10 := if b1 = 1 then o9 + 1 else o9
      let o11 := o10 + 2
      match byteAt sec o11 with
      | none => .error .indexError
      | some b2 =>
        pure (if b2 = 1 then o11 + 1 else o11)

/-- `DatabaseParser._parse_product`: uninstall tag, NGDP code and install path
in fixed order; the version field is guarded, any failure there yields the
empty version instead of an error. -/
def parseProduct (sec : List Nat) : Except PyErr ProductDbInfo := do
  let (uninstall_tag, o1) ← parseNext sec 1
  let (ngdp_code, o2) ← parseNext sec (o1 + 1)
  let (install_path, o3) ← parseNext sec (o2 + 3)
  let version :=
    match (do
      let o ← skipUnusedSections o3 sec
      parseNext sec (o + 11) : Except PyErr (List Nat × Nat)) with
    | .ok (v, _) => v
    | .error _ => []
  return ⟨uninstall_tag, ngdp_code, install_path, version⟩

/-- The section-size computation of `DatabaseParser.parse` line
`section_size = self.data[offset] + 128 if self.data[offset + 1] == 2 else
self.data[offset]` — Python evaluates the condition's index first. -/
def sectionSize (data : List Nat) (offset : Nat) : Except PyErr Nat :=
  match byteAt data (offset + 1) with
  | none => .error .indexError
  | some b2 =>
    match byteAt data offset with
    | none => .error .indexError
    | some lb => .ok (if b2 = 2 then lb + 128 else lb)

/-- The `while True` scan of `DatabaseParser.parse`: at each step the byte
before the length byte is probed; `10` (0x0A) introduces a section, anything
else (in particular 0x12 and 0x18) breaks the loop; an out-of-range probe is
an uncaught `IndexError`.  A section whose `_parse_product` raises is dropped
(`except: product = None`) and the scan continues.  `offset` grows by at
least 3 per iteration, so the fuel supplied by `databaseParse` is never
exhausted. -/
def parseLoop (data : List Nat) :
    Nat → Nat → List (List Nat × ProductDbInfo) →
    Except PyErr (List (List Nat × ProductDbInfo))
  | 0, _, _ => .error .indexError
  | fuel + 1, offset, products =>
    match byteAt data (offset - 1) with
    | none => .error .indexError
    | some b =>
      if b = 10 then
        match sectionSize data offset with
        | .error e => .error e
        | .ok size =>
          let sec := (data.drop (offset + 2)).take size
          let products' :=
            match parseProduct sec with
            | .ok p => dictInsert products p.ngdp p
            | .error _ => products
          parseLoop data fuel (offset + 2 + size + 1) products'
      else .ok products

/-- `DatabaseParser.parse` run on a raw buffer: the products dictionary, or
the Python exception it raises. -/
def databaseParse (data : List Nat) :
    Except PyErr (List (List Nat × ProductDbInfo)) :=
  parseLoop data (data.length + 2) 1 []

/-- `DatabaseParser.NOT_GAMES`. -/
def NOT_GAMES : List (List Nat) := [utf8 "bna", utf8 "agent"]

/-- `DatabaseParser.games`: the record values whose product code is not a
launcher/agent pseudo-product. -/
def databaseGames (products : List (List Nat × ProductDbInfo)) :
    List ProductDbInfo :=
  (products.filter (fun kv => ¬ kv.1 ∈ NOT_GAMES)).map (·.2)

/-- `DatabaseParser.battlenet_present`: `'bna' in self.products`. -/
def battlenetPresent (products : List (List Nat × ProductDbInfo)) : Bool :=
  (dictLookup products (utf8 "bna")).isSome

/-- The header-scan skeleton of `DatabaseParser.parse` with the product
bookkeeping erased: `true` exactly when every probe the scan performs stays
inside the buffer until a non-divider byte breaks the loop. -/
def scanSafe (data : List Nat) : Nat → Nat → Bool
  | 0, _ => false
  | fuel + 1, offset =>
    match byteAt data (offset - 1) with
    | none => false
    | some b =>
      if b = 10 then
        match byteAt data (offset + 1), byteAt data offset with
        | some b2, some lb =>
          scanSafe data fuel (offset + 2 + (if b2 = 2 then lb + 128 else lb) + 1)
        | _, _ => false
      else true

/-- When the header scan stays in bounds, `parseLoop` returns a product map:
the only uncaught exception of `DatabaseParser.parse` is the scan's own
`IndexError`. -/
theorem parseLoop_ok_of_scanSafe (data : List Nat) :
    ∀ fuel offset acc, scanSafe data fuel offset = true →
      ∃ m, parseLoop data fuel offset acc = Except.ok m := by
  intro fuel
  induction fuel with
  | zero =>
    intro offset acc h
    simp [scanSafe] at h
  | succ n ih =>
    intro offset acc h
    rw [scanSafe] at h
    rw [parseLoop]
    cases hb : byteAt data (offset - 1) with
    | none => rw [hb] at h; simp at h
    | some b =>
      rw [hb] at h
      dsimp only at h
      by_cases h10 : b = 10
      · subst h10
        simp only [if_pos rfl] at h ⊢
        cases hb2 : byteAt data (offset + 1) with
        | none => rw [hb2] at h; simp at h
        | some b2 =>
          cases hlb : byteAt data offset with
          | none => rw [hb2, hlb] at h; simp at h
          | some lb =>
            rw [hb2, hlb] at h
            have hss : sectionSize data offset =
                Except.ok (if b2 = 2 then lb + 128 else lb) := by
              rw [sectionSize, hb2, hlb]
            rw [hss]
            exact ih _ _ h
      · dsimp only
        rw [if_neg h10]
        exact ⟨acc, rfl⟩

/-- C1 (counterexample): decoding the empty byte buffer raises `IndexError`
past the boundary of `DatabaseParser.parse` (the scan probes `data[0]`
unguarded), contradicting the claim that decoding never raises for every
input buffer including the empty one. -/
theorem C1_counterexample_empty_buffer :
    databaseParse [] = Except.error PyErr.indexError := rfl

/-- C1 (amended): whenever the section-header scan of `DatabaseParser.parse`
stays within the buffer until a non-divider byte breaks the loop
(`scanSafe`), decoding returns a (possibly empty) mapping from product code
to record, and a section whose body fails to parse is dropped while decoding
continues with the next section; but a buffer whose header scan indexes past
the end (for example the empty buffer) raises `IndexError` past the parser's
boundary. -/
theorem C1_amended_database_decode :
    (∀ data, scanSafe data (data.length + 2) 1 = true →
        ∃ m, databaseParse data = Except.ok m)
    ∧ (∀ data fuel offset acc size e,
        byteAt data (offset - 1) = some 10 →
        sectionSize data offset = Except.ok size →
        parseProduct ((data.drop (offset + 2)).take size) = Except.error e →
        parseLoop data (fuel + 1) offset acc =
          parseLoop data fuel (offset + 2 + size + 1) acc) := by
  constructor
  · intro data h
    exact parseLoop_ok_of_scanSafe data _ 1 [] h
  · intro data fuel offset acc size e hdiv hsize hprod
    rw [parseLoop, hdiv]
    dsimp only
    rw [if_pos rfl, hsize]
    dsimp only
    rw [hprod]

/-- C1 (witness): a concrete buffer whose single section has an invalid
UTF-8 uninstall tag: the scan is in bounds, the section is dropped, and
decoding returns the empty map; the drop-and-continue step is exhibited at
the same buffer. -/
theorem C1_amended_database_decode_witness :
    (∃ m, databaseParse [10, 3, 0, 0, 1, 255, 24] = Except.ok m)
    ∧ parseLoop [10, 3, 0, 0, 1, 255, 24] 8 1 [] =
        parseLoop [10, 3, 0, 0, 1, 255, 24] 7 7 [] :=
  ⟨C1_amended_database_decode.1 [10, 3, 0, 0, 1, 255, 24] rfl,
   C1_amended_database_decode.2 [10, 3, 0, 0, 1, 255, 24] 7 1 [] 3
     PyErr.unicodeError rfl rfl rfl⟩

/-- C5: in the decoder's section scan, with the divider byte sitting before
the length byte, the section length is the length byte plus 128 exactly when
the byte after the length byte equals 2 (0x02), and the plain length byte
otherwise; and when the byte probed at the divider position is 18 (0x12,
very-long-path marker) or 24 (0x18, end-of-data marker) the scan loop
terminates there, returning the products decoded so far. -/
theorem C5_section_size_and_terminators :
    (∀ data offset lb b2,
        byteAt data offset = some lb →
        byteAt data (offset + 1) = some b2 →
        ((sectionSize data offset = Except.ok (lb + 128) ↔ b2 = 2)
          ∧ (b2 ≠ 2 → sectionSize data offset = Except.ok lb)))
    ∧ (∀ data offset acc fuel b,
        byteAt data (offset - 1) = some b →
        (b = 18 ∨ b = 24) →
        parseLoop data (fuel + 1) offset acc = Except.ok acc) := by
  constructor
  · intro data offset lb b2 hlb hb2
    have hss : sectionSize data offset =
        Except.ok (if b2 = 2 then lb + 128 else lb) := by
      rw [sectionSize, hb2, hlb]
    constructor
    · constructor
      · intro hok
        by_contra hne
        rw [hss, if_neg hne] at hok
        have : lb = lb + 128 := by injection hok
        omega
      · intro h2
        rw [hss, if_pos h2]
    · intro hne
      rw [hss, if_neg hne]
  · intro data offset acc fuel b hb hterm
    have hne : ¬ b = 10 := by rcases hterm with h | h <;> omega
    rw [parseLoop, hb]
    dsimp only
    rw [if_neg hne]

/-- C5 (witness): a concrete buffer `[10, 5, 2]` whose extension byte is 2
yields section size 5 + 128 = 133, and the buffer `[24]` (end-of-data
marker at the divider position) terminates decoding immediately with the
empty product map. -/
theorem C5_section_size_and_terminators_witness :
    sectionSize [10, 5, 2] 1 = Except.ok 133
    ∧ parseLoop [24] 1 1 [] = Except.ok [] :=
  ⟨(C5_section_size_and_terminators.1 [10, 5, 2] 1 5 2 rfl rfl).1.mpr rfl,
   C5_section_size_and_terminators.2 [24] 1 [] 0 24 rfl (Or.inr rfl)⟩

/-! ## JSON configuration decoder (`parsers.py`, `ConfigParser`) -/

/-- The values `json.load` can produce (object keys and strings are UTF-8
byte sequences, see the conventions above). -/
inductive JVal where
  | str (s : List Nat)
  | num (n : Int)
  | bool (b : Bool)
  | null
  | arr (xs : List JVal)
  | obj (kvs : List (List Nat × JVal))
  deriving Repr

mutual

/-- Structural equality of JSON values: Python `==` / `!=` on the trees
`json.load` returns. -/
def jvalBeq : JVal → JVal → Bool
  | .str a, .str b => a = b
  | .num a, .num b => a = b
  | .bool a, .bool b => a = b
  | .null, .null => true
  | .arr a, .arr b => jvalListBeq a b
  | .obj a, .obj b => jvalObjBeq a b
  | _, _ => false

/-- Elementwise equality of JSON arrays. -/
def jvalListBeq : List JVal → List JVal → Bool
  | [], [] => true
  | x :: xs, y :: ys => jvalBeq x y && jvalListBeq xs ys
  | _, _ => false

/-- Pairwise equality of JSON objects (as ordered key-value lists). -/
def jvalObjBeq : List (List Nat × JVal) → List (List Nat × JVal) → Bool
  | [], [] => true
  | (k1, v1) :: xs, (k2, v2) :: ys =>
    decide (k1 = k2) && jvalBeq v1 v2 && jvalObjBeq xs ys
  | _, _ => false

end

/-- Python `==` between a JSON value and a `str`: true exactly for an equal
string (comparison with any other type is `False`, never an error). -/
def isStrEq (v : JVal) (s : List Nat) : Bool :=
  match v with
  | .str t => t = s
  | _ => false

/-- Python `key in v`: key test on a `dict`, membership on a `list`,
substring test on a `str`, `TypeError` on numbers / booleans / `None`. -/
def jHasKey (v : JVal) (key : List Nat) : Except PyErr Bool :=
  match v with
  | .obj kvs => .ok (kvs.any (fun kv => kv.1 = key))
  | .arr xs => .ok (xs.any (fun x => isStrEq x key))
  | .str s => .ok (decide (key <:+: s))
  | _ => .error .typeError

/-- Python `v[key]` for a string key: lookup on a `dict` (`KeyError` when
absent), `TypeError` on every other type. -/
def jGet (v : JVal) (key : List Nat) : Except PyErr JVal :=
  match v with
  | .obj kvs =>
    match kvs.find? (fun kv => kv.1 = key) with
    | some kv => .ok kv.2
    | none => .error .keyError
  | _ => .error .typeError

/-- `definitions.ConfigGameInfo`: one per-game config record.  `ServerUid`
and `LastPlayed` hold whatever JSON value the file carries, `null` standing
for Python `None` (absent field). -/
structure ConfigGameInfo where
  uid : List Nat
  uninstall_tag : JVal
  last_played : JVal
  deriving Repr

/-- The locale / region pair `ConfigParser.parse` mutates while scanning the
document (`self._blizz_code_lang`, `self._region`). -/
structure CPState where
  lang : JVal
  region : JVal
  deriving Repr

/-- The defaults set at the top of `ConfigParser.__init__`: locale `'enUS'`,
region `'US'`. -/
def cpDefaults : CPState := ⟨.str (utf8 "enUS"), .str (utf8 "US")⟩

/-- The `for key in content.keys()` loop of `ConfigParser.parse`, threading
the mutated locale/region state; an exception stops the loop and is reported
alongside the state already written. -/
def cpParseLoop : CPState → List (List Nat × JVal) → CPState × Option PyErr
  | s, [] => (s, none)
  | s, (_, v) :: rest =>
    match jHasKey v (utf8 "Client") with
    | .error e => (s, some e)
    | .ok true =>
      match (jGet v (utf8 "Client")).bind (fun c => jGet c (utf8 "Language")) with
      | .error e => (s, some e)
      | .ok lang => cpParseLoop { s with lang := lang } rest
    | .ok false =>
      match jHasKey v (utf8 "Services") with
      | .error e => (s, some e)
      | .ok true =>
        match (jGet v (utf8 "Services")).bind
            (fun c => jGet c (utf8 "LastLoginRegion")) with
        | .error e => (s, some e)
        | .ok r => cpParseLoop { s with region := r } rest
      | .ok false => cpParseLoop s rest

/-- `ConfigParser.parse`: scan the top-level entries (a non-`dict` document
raises `AttributeError` at `content.keys()`), then return the `'Games'`
sub-object when present and `{}` otherwise, together with the locale/region
state written so far. -/
def cpParse (s : CPState) (content : JVal) : CPState × Except PyErr JVal :=
  match content with
  | .obj kvs =>
    match cpParseLoop s kvs with
    | (s', some e) => (s', .error e)
    | (s', none) =>
      match kvs.find? (fun kv => kv.1 = utf8 "Games") with
      | some kv => (s', .ok kv.2)
      | none => (s', .ok (.obj []))
  | _ => (s, .error .attrError)

/-- `ConfigParser.decode`: one `ConfigGameInfo` per `Games` entry, skipping
the `battle_net` launcher entry; a non-`dict` games container or entry
raises `AttributeError` at `.items()` / `.get`. -/
def cpDecode : JVal → Except PyErr (List ConfigGameInfo)
  | .obj kvs => cpDecodeLoop kvs
  | _ => .error .attrError
where
  /-- The `for uid, properties in games_dict.items()` loop. -/
  cpDecodeLoop : List (List Nat × JVal) → Except PyErr (List ConfigGameInfo)
  | [] => .ok []
  | (uid, props) :: rest =>
    if uid = utf8 "battle_net" then cpDecodeLoop rest
    else
      match props with
      | .obj pkvs =>
        let tag := ((pkvs.find? (fun kv => kv.1 = utf8 "ServerUid")).map
          (·.2)).getD .null
        let lp := ((pkvs.find? (fun kv => kv.1 = utf8 "LastPlayed")).map
          (·.2)).getD .null
        match cpDecodeLoop rest with
        | .error e => .error e
        | .ok gs => .ok (⟨uid, tag, lp⟩ :: gs)
      | _ => .error .attrError

/-- The observable state of a constructed `ConfigParser`: locale, region and
game-record list. -/
structure ConfigParserState where
  lang : JVal
  region : JVal
  games : List ConfigGameInfo
  deriving Repr

/-- `ConfigParser.__init__`: defaults first; `None` document keeps them; any
exception from `parse`/`decode` is caught and logged, leaving the game list
empty and locale/region at whatever `parse` had already written. -/
def configParserInit (config : Option JVal) : ConfigParserState :=
  match config with
  | none => ⟨cpDefaults.lang, cpDefaults.region, []⟩
  | some d =>
    match cpParse cpDefaults d with
    | (s', .error _) => ⟨s'.lang, s'.region, []⟩
    | (s', .ok gamesVal) =>
      match cpDecode gamesVal with
      | .error _ => ⟨s'.lang, s'.region, []⟩
      | .ok gs => ⟨s'.lang, s'.region, gs⟩

/-- A config document whose second entry has a `Services` object without the
`LastLoginRegion` field, read after the first entry already set the locale to
`frFR`. -/
def docLocaleThenError : JVal := .obj [
  (utf8 "a", .obj [(utf8 "Client", .obj [(utf8 "Language", .str (utf8 "frFR"))])]),
  (utf8 "b", .obj [(utf8 "Services", .obj [])])]

/-- A config document whose `Games` entry maps a uid to a number, so
`ConfigParser.decode` raises `AttributeError` at `properties.get`. -/
def docGamesNotDict : JVal := .obj [(utf8 "Games", .obj [(utf8 "g1", .num 5)])]

/-- C4 (counterexample): on `docLocaleThenError` the decode raises `KeyError`
(caught inside the boundary), yet the resulting state keeps the already
parsed locale `frFR` instead of reverting to the default `enUS` — the claim
that the result is the defaults on any exception is false. -/
theorem C4_counterexample_partial_locale :
    cpParse cpDefaults docLocaleThenError =
      (⟨.str (utf8 "frFR"), .str (utf8 "US")⟩, Except.error PyErr.keyError)
    ∧ configParserInit (some docLocaleThenError) =
      ⟨.str (utf8 "frFR"), .str (utf8 "US"), []⟩
    ∧ utf8 "frFR" ≠ utf8 "enUS" :=
  ⟨rfl, rfl, by decide⟩

/-- C4 (amended): every exception raised during config decoding is caught
inside the `ConfigParser` boundary (`configParserInit` is total) and leaves
the game-record list empty, but locale and region retain whatever values were
already parsed before the exception — they fall back to the defaults `enUS` /
`US` only when nothing was parsed; when no document is given the exact
defaults are returned. -/
theorem C4_amended_config_exception_boundary :
    configParserInit none = ⟨cpDefaults.lang, cpDefaults.region, []⟩
    ∧ (∀ d s' e, cpParse cpDefaults d = (s', Except.error e) →
        configParserInit (some d) = ⟨s'.lang, s'.region, []⟩)
    ∧ (∀ d s' g e, cpParse cpDefaults d = (s', Except.ok g) →
        cpDecode g = Except.error e →
        configParserInit (some d) = ⟨s'.lang, s'.region, []⟩) := by
  refine ⟨rfl, ?_, ?_⟩
  · intro d s' e h
    simp only [configParserInit, h]
  · intro d s' g e h1 h2
    simp only [configParserInit, h1, h2]

/-- C4 (witness): the amended behaviour at the two concrete documents — a
parse-phase exception keeps the partially written locale, and a decode-phase
exception keeps the defaults (nothing was written) — in both cases with zero
game records. -/
theorem C4_amended_config_exception_boundary_witness :
    configParserInit (some docLocaleThenError) =
      ⟨.str (utf8 "frFR"), .str (utf8 "US"), []⟩
    ∧ configParserInit (some docGamesNotDict) =
      ⟨cpDefaults.lang, cpDefaults.region, []⟩ :=
  ⟨C4_amended_config_exception_boundary.2.1 docLocaleThenError
      ⟨.str (utf8 "frFR"), .str (utf8 "US")⟩ PyErr.keyError rfl,
   C4_amended_config_exception_boundary.2.2 docGamesNotDict cpDefaults
      (JVal.obj [(utf8 "g1", .num 5)]) PyErr.attrError rfl rfl⟩

/-! ## Static game catalog (`definitions.py`, `_Blizzard`) -/

/-- `definitions.BlizzardGame`. -/
structure BlizzardGame where
  uid : List Nat
  name : List Nat
  blizzard_id : List Nat
  family : List Nat
  deriving DecidableEq, Repr

/-- `_Blizzard._GAMES`: the fixed catalog, in source order. -/
def BLIZZARD_GAMES : List BlizzardGame := [
  ⟨utf8 "s1", utf8 "StarCraft", utf8 "21297", utf8 "S1"⟩,
  ⟨utf8 "s2", utf8 "StarCraft II", utf8 "21298", utf8 "S2"⟩,
  ⟨utf8 "wow", utf8 "World of Warcraft", utf8 "5730135", utf8 "WoW"⟩,
  ⟨utf8 "prometheus", utf8 "Overwatch", utf8 "5272175", utf8 "Pro"⟩,
  ⟨utf8 "w3", utf8 "Warcraft III", utf8 "?", utf8 "W3"⟩,
  ⟨utf8 "destiny2", utf8 "Destiny 2", utf8 "1146311730", utf8 "DST2"⟩,
  ⟨utf8 "hs_beta", utf8 "Hearthstone", utf8 "1465140039", utf8 "WTCG"⟩,
  ⟨utf8 "heroes", utf8 "Heroes of the Storm", utf8 "1214607983", utf8 "Hero"⟩,
  ⟨utf8 "d3cn", utf8 "暗黑破壞神III", utf8 "?", utf8 "D3CN"⟩,
  ⟨utf8 "diablo3", utf8 "Diablo III", utf8 "17459", utf8 "D3"⟩,
  ⟨utf8 "viper", utf8 "Call of Duty: Black Ops 4", utf8 "1447645266", utf8 "VIPR"⟩]

/-- `_Blizzard.__getitem__`: scan `_GAMES` in order and return the first
entry whose external id (`blizzard_id`), `uid` or display `name` equals the
key; `KeyError` when none matches. -/
def blizzardGetItem (key : List Nat) : Except PyErr BlizzardGame :=
  match BLIZZARD_GAMES.find?
      (fun g => key = g.blizzard_id ∨ key = g.uid ∨ key = g.name) with
  | some g => .ok g
  | none => .error .keyError

/-- `_Blizzard.__init__` / `_Blizzard.games`: the dictionary keyed by
`blizzard_id`, built by inserting every catalog entry in order (a later
entry with the same external id overwrites the earlier one). -/
def blizzardGamesMap : List (List Nat × BlizzardGame) :=
  BLIZZARD_GAMES.foldl (fun m g => dictInsert m g.blizzard_id g) []

/-- C10: `Blizzard[key]` returns the first catalog entry matching the key on
external id, uid or display name, and raises `KeyError` when none matches;
the two placeholder entries sharing external id `?` make lookup and the
`games` map disagree there: `Blizzard['?']` is the Warcraft III entry (uid
`w3`, list position 4) while `games['?']` is the `d3cn` entry (which
overwrote it); ordinary keys (`s1`, a display name, an unknown key) behave
as described. -/
theorem C10_catalog_placeholder_disagreement :
    blizzardGetItem (utf8 "?") =
      Except.ok ⟨utf8 "w3", utf8 "Warcraft III", utf8 "?", utf8 "W3"⟩
    ∧ dictLookup blizzardGamesMap (utf8 "?") =
      some ⟨utf8 "d3cn", utf8 "暗黑破壞神III", utf8 "?", utf8 "D3CN"⟩
    ∧ utf8 "w3" ≠ utf8 "d3cn"
    ∧ blizzardGetItem (utf8 "s1") =
      Except.ok ⟨utf8 "s1", utf8 "StarCraft", utf8 "21297", utf8 "S1"⟩
    ∧ blizzardGetItem (utf8 "Diablo III") =
      Except.ok ⟨utf8 "diablo3", utf8 "Diablo III", utf8 "17459", utf8 "D3"⟩
    ∧ blizzardGetItem (utf8 "nosuchgame") = Except.error PyErr.keyError :=
  ⟨rfl, rfl, by decide, rfl, rfl, rfl⟩

/-! ## Installed games and the config/database join
(`game.py`, `plugin.py::_parse_local_data`) -/

instance {ε α : Type} [DecidableEq ε] [DecidableEq α] :
    DecidableEq (Except ε α) := fun a b =>
  match a, b with
  | .ok x, .ok y =>
    if h : x = y then .isTrue (by rw [h]) else .isFalse (by simp [h])
  | .error x, .error y =>
    if h : x = y then .isTrue (by rw [h]) else .isFalse (by simp [h])
  | .ok _, .error _ => .isFalse (by simp)
  | .error _, .ok _ => .isFalse (by simp)

/-- One live OS process as the correlator sees it: the `exe` attribute taken
during `psutil.process_iter(attrs=['exe'], ad_value='')` enumeration (access
denial yields the empty string, enumeration itself never raises), and the
outcome of a later live `process.exe()` inspection, which can raise
(`NoSuchProcess` when the process vanished, `AccessDenied`). -/
structure ProcModel where
  exeInfo : List Nat
  exeLive : Except PyErr (List Nat)
  deriving DecidableEq, Repr

/-- Python `set.add`. -/
def setAdd {α : Type} [DecidableEq α] (s : List α) (x : α) : List α :=
  if x ∈ s then s else s ++ [x]

/-- `game.InstalledGame`: the derived entity built by the join; `execs` is
what `pathfinder.find_executables(install_path)` returned at construction
and `processes` is the `_processes` binding set. -/
structure InstalledGame where
  info : BlizzardGame
  uninstall_tag : JVal
  version : List Nat
  last_played : JVal
  install_path : List Nat
  execs : List (List Nat)
  processes : List ProcModel
  deriving Repr

/-- `InstalledGame.playable`: true iff the decoded version string is
non-empty (the source returns `True` or `None`; `None` is falsy). -/
def InstalledGame.playable (g : InstalledGame) : Bool :=
  g.version ≠ []

/-- The inner `for config_game in self.config_parser.games` loop of
`BNetPlugin._parse_local_data` for one database record: every config record
whose `ServerUid` equals the database record's uninstall tag (there is no
break after a match) is resolved against the catalog (`KeyError` → skip with
a warning); the `InstalledGame` constructor runs `find` on the install path
(`FileNotFoundError` → skip); any other exception aborts the join, which the
outer `except Exception ... finally: return games` turns into returning the
games built so far. -/
def joinConfigLoop (find : List Nat → Except PyErr (List (List Nat)))
    (db : ProductDbInfo) :
    List (List Nat × InstalledGame) → List ConfigGameInfo →
    List (List Nat × InstalledGame) × Option PyErr
  | games, [] => (games, none)
  | games, cg :: rest =>
    if ¬ isStrEq cg.uninstall_tag db.uninstall_tag then
      joinConfigLoop find db games rest
    else
      match blizzardGetItem cg.uid with
      | .error .keyError => joinConfigLoop find db games rest
      | .error e => (games, some e)
      | .ok bg =>
        match find db.install_path with
        | .error .fileNotFound => joinConfigLoop find db games rest
        | .error e => (games, some e)
        | .ok execs =>
          joinConfigLoop find db
            (dictInsert games bg.blizzard_id
              ⟨bg, cg.uninstall_tag, db.version, cg.last_played,
               db.install_path, execs, []⟩) rest

/-- The outer `for db_game in self.database_parser.games` loop: an abort in
the inner loop stops the whole join, keeping the games built so far. -/
def joinDbLoop (find : List Nat → Except PyErr (List (List Nat)))
    (cfgGames : List ConfigGameInfo) :
    List (List Nat × InstalledGame) → List ProductDbInfo →
    List (List Nat × InstalledGame) × Option PyErr
  | games, [] => (games, none)
  | games, db :: rest =>
    match joinConfigLoop find db games cfgGames with
    | (games', none) => joinDbLoop find cfgGames games' rest
    | (games', some e) => (games', some e)

/-- The join of `BNetPlugin._parse_local_data` (lines 177–196): database
records against config records, keyed by resolved catalog external id. -/
def joinGames (find : List Nat → Except PyErr (List (List Nat)))
    (dbGames : List ProductDbInfo) (cfgGames : List ConfigGameInfo) :
    List (List Nat × InstalledGame) × Option PyErr :=
  joinDbLoop find cfgGames [] dbGames

/-- A filesystem locator that finds no executables and never fails. -/
def trivialFind : List Nat → Except PyErr (List (List Nat)) :=
  fun _ => .ok []

/-- A database record with uninstall tag `T1`, product code `p1`. -/
def dbRecT1 : ProductDbInfo := ⟨utf8 "T1", utf8 "p1", utf8 "/p", utf8 "1.0"⟩

/-- A config record with uid `s1` and uninstall tag `T1`. -/
def cfgRecS1 : ConfigGameInfo := ⟨utf8 "s1", .str (utf8 "T1"), .null⟩

/-- A second config record with uid `s2` and the same uninstall tag `T1`. -/
def cfgRecS2 : ConfigGameInfo := ⟨utf8 "s2", .str (utf8 "T1"), .null⟩

/-- A config record whose uid resolves to no catalog entry. -/
def cfgRecUnknown : ConfigGameInfo := ⟨utf8 "zzz", .str (utf8 "T1"), .null⟩

/-- C6 (counterexample): the inner config scan has no break after a match, so
a single `DatabaseRecord` tagged `T1` joined with two `ConfigRecord`s that
both carry tag `T1` (uids `s1` and `s2`) yields two `InstalledGame`s, keyed
`21297` and `21298` — not at most one per `DatabaseRecord` resolved from the
first match only. -/
theorem C6_counterexample_two_matches :
    ((joinGames trivialFind [dbRecT1] [cfgRecS1, cfgRecS2]).1.map Prod.fst)
      = [utf8 "21297", utf8 "21298"] := rfl

/-- C6 (amended): the join scans every `ConfigRecord` (not only the first
match): each config record whose uninstall tag equals the database record's
is resolved against the catalog and inserts one `InstalledGame` keyed by the
resolved external id; a uid with no catalog entry is skipped with a warning,
not an error.  In particular one `DatabaseRecord` plus one matching
`ConfigRecord` whose uid resolves yields exactly one `InstalledGame` keyed by
the resolved id (for uid `s1` that key is `21297`). -/
theorem C6_amended_join_all_matches :
    (∀ find db cg bg execs,
      isStrEq cg.uninstall_tag db.uninstall_tag = true →
      blizzardGetItem cg.uid = Except.ok bg →
      find db.install_path = Except.ok execs →
      joinGames find [db] [cg] =
        ([(bg.blizzard_id,
           ⟨bg, cg.uninstall_tag, db.version, cg.last_played,
            db.install_path, execs, []⟩)], none))
    ∧ (∀ find db cg,
      isStrEq cg.uninstall_tag db.uninstall_tag = true →
      blizzardGetItem cg.uid = Except.error PyErr.keyError →
      joinGames find [db] [cg] = ([], none)) := by
  constructor
  · intro find db cg bg execs htag huid hfind
    simp [joinGames, joinDbLoop, joinConfigLoop, htag, huid, hfind, dictInsert]
  · intro find db cg htag huid
    simp [joinGames, joinDbLoop, joinConfigLoop, htag, huid]

/-- C6 (witness): the spec's join-correctness instance at the real catalog —
one database record tagged `T1` and one config record `{uid s1, tag T1}`
produce exactly one `InstalledGame` keyed by StarCraft's external id `21297`;
an unresolvable uid produces none. -/
theorem C6_amended_join_all_matches_witness :
    joinGames trivialFind [dbRecT1] [cfgRecS1] =
      ([(utf8 "21297",
         ⟨⟨utf8 "s1", utf8 "StarCraft", utf8 "21297", utf8 "S1"⟩,
          .str (utf8 "T1"), utf8 "1.0", .null, utf8 "/p", [], []⟩)], none)
    ∧ joinGames trivialFind [dbRecT1] [cfgRecUnknown] = ([], none) :=
  ⟨C6_amended_join_all_matches.1 trivialFind dbRecT1 cfgRecS1
      ⟨utf8 "s1", utf8 "StarCraft", utf8 "21297", utf8 "S1"⟩ [] rfl rfl rfl,
   C6_amended_join_all_matches.2 trivialFind dbRecT1 cfgRecUnknown rfl rfl⟩

/-! ## Refresh pass (`plugin.py::_parse_local_data`) -/

/-- What reading and JSON-parsing the config file can yield: the file is
absent (`FileNotFoundError`), `json.load` raises on malformed JSON, or a
parsed document. -/
inductive ConfigInput where
  | missing
  | jsonError (e : PyErr)
  | parsed (d : JVal)

/-- The two platforms `consts.SYSTEM` can take (any other platform fails
when `consts` is first loaded). -/
inductive SysOS where
  | windows
  | macos

/-- The external collaborators `_parse_local_data` touches: the local
Battle.net client (`is_installed`, `refresh`), the uninstaller constructor,
and the executable locator injected into `InstalledGame`. -/
structure PluginEnv where
  clientInstalled : Bool
  refresh : Except PyErr Unit
  uninstallerCached : Bool
  system : SysOS
  uninstallerInit : Except PyErr Unit
  find : List Nat → Except PyErr (List (List Nat))

/-- The uninstaller-setup step of `_parse_local_data`: skipped when already
cached; only `FileNotFoundError` from the constructor is caught. -/
def uninstallerStep (env : PluginEnv) : Except PyErr Unit :=
  if env.uninstallerCached then .ok ()
  else
    match env.uninstallerInit with
    | .error .fileNotFound => .ok ()
    | .error e => .error e
    | .ok _ => .ok ()

/-- `BNetPlugin._parse_local_data`: the per-refresh pass.  The two config
reads catch only `FileNotFoundError` (a JSON decode error propagates), the
database read catches only `FileNotFoundError` (a `DatabaseParser` exception
such as `IndexError` propagates), the unguarded `else`-branch client refresh
propagates, and only the final join block is wrapped in
`except Exception ... finally: return games`. -/
def parseLocalData (env : PluginEnv) (cfg : ConfigInput)
    (dbFile : Option (List Nat)) :
    Except PyErr (List (List Nat × InstalledGame)) :=
  match cfg with
  | .jsonError e => .error e
  | _ =>
    match dbFile with
    | none => .ok []
    | some data =>
      match databaseParse data with
      | .error e => .error e
      | .ok products =>
        match (if env.clientInstalled ≠ battlenetPresent products
            then env.refresh else .ok ()) with
        | .error e => .error e
        | .ok _ =>
          match cfg with
          | .missing => .ok []
          | .jsonError e => .error e
          | .parsed d =>
            let cp := configParserInit (some d)
            match uninstallerStep env with
            | .error e => .error e
            | .ok _ =>
              if env.clientInstalled ≠ battlenetPresent products then
                match env.refresh with
                | .error _ => .ok []
                | .ok _ =>
                  .ok (joinGames env.find (databaseGames products) cp.games).1
              else
                .ok (joinGames env.find (databaseGames products) cp.games).1

/-- A concrete collaborator environment: client installed and cached
uninstaller, so no external call can interfere. -/
def envQuiet : PluginEnv :=
  ⟨false, .ok (), true, .macos, .ok (), trivialFind⟩

/-- C3 (counterexample): with an empty (hence malformed) `product.db` and a
well-formed empty config document, `_parse_local_data` propagates the
decoder's `IndexError` instead of returning an installed-game map — the
`DatabaseParser(product_db)` construction is guarded only against
`FileNotFoundError`, so the file-watcher refresh loop would die on it. -/
theorem C3_counterexample_empty_db :
    parseLocalData envQuiet (.parsed (.obj [])) (some []) =
      Except.error PyErr.indexError := rfl

/-- C3 (amended): a missing database file and errors inside the final join
block are handled — the pass returns a (possibly empty) map — but an
exception raised while decoding the database buffer (for example `IndexError`
on an empty or truncated `product.db`), like a config JSON decode error,
propagates out of `_parse_local_data` to the refresh loop. -/
theorem C3_amended_refresh_error_boundary :
    (∀ env d, parseLocalData env (.parsed d) none = Except.ok [])
    ∧ (∀ env d data e, databaseParse data = Except.error e →
        parseLocalData env (.parsed d) (some data) = Except.error e)
    ∧ (∀ env d data products, databaseParse data = Except.ok products →
        env.uninstallerCached = true →
        env.clientInstalled = battlenetPresent products →
        parseLocalData env (.parsed d) (some data) =
          Except.ok (joinGames env.find (databaseGames products)
            ((configParserInit (some d)).games)).1)
    ∧ (∀ env data e, parseLocalData env (.jsonError e) data =
        Except.error e) := by
  refine ⟨?_, ?_, ?_, ?_⟩
  · intro env d
    rfl
  · intro env d data e h
    simp [parseLocalData, h]
  · intro env d data products hdb hcache hclient
    simp [parseLocalData, hdb, uninstallerStep, hcache, hclient]
  · intro env data e
    rfl

/-- C3 (witness): the amended behaviour at concrete inputs — missing
database file, empty database buffer, and a well-formed one-byte terminator
buffer together with an empty config document. -/
theorem C3_amended_refresh_error_boundary_witness :
    parseLocalData envQuiet (.parsed (.obj [])) none = Except.ok []
    ∧ parseLocalData envQuiet (.parsed (.obj [])) (some []) =
        Except.error PyErr.indexError
    ∧ parseLocalData envQuiet (.parsed (.obj [])) (some [24]) =
        Except.ok (joinGames envQuiet.find (databaseGames [])
          ((configParserInit (some (.obj []))).games)).1
    ∧ parseLocalData envQuiet (.jsonError .valueError) (some [24]) =
        Except.error PyErr.valueError :=
  ⟨C3_amended_refresh_error_boundary.1 envQuiet (.obj []),
   C3_amended_refresh_error_boundary.2.1 envQuiet (.obj []) [] .indexError rfl,
   C3_amended_refresh_error_boundary.2.2.1 envQuiet (.obj []) [24] [] rfl rfl rfl,
   C3_amended_refresh_error_boundary.2.2.2 envQuiet (some [24]) .valueError⟩

/-! ## State-engine diff (`plugin.py::_update_statuses`) -/

/-- The `LocalGameState` values `_update_statuses` can emit: `None_`,
`Installed`, or the flags-combination `Installed | Running`. -/
inductive GState where
  | none_
  | installed
  | installedRunning
  deriving DecidableEq, Repr

/-- The first loop of `_update_statuses` over the refreshed map: existence
change, then playable change, then last-played change, emitting one event
per entry that changed and scheduling a stop-watch on the last-played
branch. -/
def updateLoop1 (previous : List (List Nat × InstalledGame)) :
    List (List Nat × InstalledGame) →
    List (List Nat × GState) × List (List Nat)
  | [] => ([], [])
  | (bid, refr) :: rest =>
    let (evs, watches) := updateLoop1 previous rest
    match dictLookup previous bid with
    | none =>
      if refr.playable then ((bid, .installed) :: evs, watches)
      else ((bid, .none_) :: evs, watches)
    | some prev =>
      if refr.playable && !prev.playable then ((bid, .installed) :: evs, watches)
      else if !(jvalBeq refr.last_played prev.last_played) then
        ((bid, .installedRunning) :: evs, bid :: watches)
      else (evs, watches)

/-- The second loop of `_update_statuses` over the previous map: an id that
vanished from the refreshed map emits `None_` (uninstalled). -/
def updateLoop2 (refreshed : List (List Nat × InstalledGame)) :
    List (List Nat × InstalledGame) → List (List Nat × GState)
  | [] => []
  | (bid, _) :: rest =>
    if (dictLookup refreshed bid).isNone then
      (bid, .none_) :: updateLoop2 refreshed rest
    else updateLoop2 refreshed rest

/-- `BNetPlugin._update_statuses`: the events emitted (in order) and the ids
for which a `_notify_about_game_stop` watch task is created. -/
def updateStatuses (refreshed previous : List (List Nat × InstalledGame)) :
    List (List Nat × GState) × List (List Nat) :=
  ((updateLoop1 previous refreshed).1 ++ updateLoop2 refreshed previous,
   (updateLoop1 previous refreshed).2)

/-- A refreshed entry absent from the scanned list contributes no event and
no watch with its id. -/
theorem updateLoop1_filter_not_mem (previous : List (List Nat × InstalledGame))
    (bid : List Nat) :
    ∀ refreshed, bid ∉ refreshed.map Prod.fst →
      ((updateLoop1 previous refreshed).1.filter (fun ev => ev.1 = bid) = []
        ∧ (updateLoop1 previous refreshed).2.filter (fun k => k = bid) = []) := by
  intro refreshed
  induction refreshed with
  | nil => intro _; exact ⟨rfl, rfl⟩
  | cons hd rest ih =>
    intro hmem
    obtain ⟨k, r⟩ := hd
    simp only [List.map_cons, List.mem_cons] at hmem
    push_neg at hmem
    obtain ⟨hk, hrest⟩ := hmem
    obtain ⟨ih1, ih2⟩ := ih hrest
    rw [updateLoop1]
    cases hprev : dictLookup previous k with
    | none =>
      by_cases hp : r.playable <;>
        simp [hprev, hp, List.filter_cons, ih1, ih2, Ne.symm hk]
    | some prev =>
      by_cases hp : (r.playable && !prev.playable : Bool) <;>
        by_cases hlp : (!(jvalBeq r.last_played prev.last_played) : Bool) <;>
          simp [hprev, hp, hlp, List.filter_cons, ih1, ih2, Ne.symm hk]

/-- What the first diff loop emits for one refreshed entry, by the source's
precedence: existence change, then playable change, then last-played
change. -/
def entryEvents (previous : List (List Nat × InstalledGame)) (bid : List Nat)
    (g : InstalledGame) : List (List Nat × GState) :=
  match dictLookup previous bid with
  | none => if g.playable then [(bid, .installed)] else [(bid, .none_)]
  | some prev =>
    if g.playable && !prev.playable then [(bid, .installed)]
    else if !(jvalBeq g.last_played prev.last_played) then
      [(bid, .installedRunning)]
    else []

/-- The watch tasks the first diff loop schedules for one refreshed entry:
only the last-played branch schedules one. -/
def entryWatches (previous : List (List Nat × InstalledGame)) (bid : List Nat)
    (g : InstalledGame) : List (List Nat) :=
  match dictLookup previous bid with
  | none => []
  | some prev =>
    if g.playable && !prev.playable then []
    else if !(jvalBeq g.last_played prev.last_played) then [bid]
    else []

/-- With refreshed keys unique, the events and watches carrying a given id
are exactly what that id's own entry emits. -/
theorem updateLoop1_filter_mem (previous : List (List Nat × InstalledGame))
    (bid : List Nat) (g : InstalledGame) :
    ∀ refreshed, (refreshed.map Prod.fst).Nodup → (bid, g) ∈ refreshed →
      ((updateLoop1 previous refreshed).1.filter (fun ev => ev.1 = bid)
          = entryEvents previous bid g
        ∧ (updateLoop1 previous refreshed).2.filter (fun k => k = bid)
          = entryWatches previous bid g) := by
  intro refreshed
  induction refreshed with
  | nil => intro _ h; simp at h
  | cons hd rest ih =>
    intro hnd hmem
    obtain ⟨k, r⟩ := hd
    simp only [List.map_cons, List.nodup_cons] at hnd
    obtain ⟨hknotin, hndrest⟩ := hnd
    rw [List.mem_cons] at hmem
    rcases hmem with heq | hmem
    · obtain ⟨h1, h2⟩ := Prod.mk.injEq .. ▸ heq
      subst h1
      subst h2
      obtain ⟨r1, r2⟩ := updateLoop1_filter_not_mem previous bid rest hknotin
      rw [updateLoop1, entryEvents, entryWatches]
      cases hprev : dictLookup previous bid with
      | none =>
        by_cases hp : g.playable <;>
          simp [hprev, hp, List.filter_cons, r1, r2]
      | some prev =>
        by_cases hp : (g.playable && !prev.playable : Bool) <;>
          by_cases hlp : (!(jvalBeq g.last_played prev.last_played) : Bool) <;>
            simp [hprev, hp, hlp, List.filter_cons, r1, r2]
    · have hk : ¬ (k = bid) := by
        intro he
        exact hknotin (he ▸ List.mem_map_of_mem Prod.fst hmem)
      obtain ⟨ih1, ih2⟩ := ih hndrest hmem
      rw [updateLoop1]
      cases hprev : dictLookup previous k with
      | none =>
        by_cases hp : r.playable <;>
          simp [hprev, hp, List.filter_cons, ih1, ih2, hk]
      | some prev =>
        by_cases hp : (r.playable && !prev.playable : Bool) <;>
          by_cases hlp : (!(jvalBeq r.last_played prev.last_played) : Bool) <;>
            simp [hprev, hp, hlp, List.filter_cons, ih1, ih2, hk]

/-- An id present in the refreshed map never appears in the uninstalled
loop's events. -/
theorem updateLoop2_filter (refreshed : List (List Nat × InstalledGame))
    (bid : List Nat) (h : (dictLookup refreshed bid).isSome = true) :
    ∀ prevs, (updateLoop2 refreshed prevs).filter (fun ev => ev.1 = bid) = [] := by
  intro prevs
  induction prevs with
  | nil => rfl
  | cons hd rest ih =>
    obtain ⟨k, r⟩ := hd
    rw [updateLoop2]
    by_cases hk : (dictLookup refreshed k).isNone
    · have hne : ¬ (k = bid) := by
        intro he
        subst he
        rw [Option.isNone_iff_eq_none] at hk
        rw [hk] at h
        simp at h
      simp [hk, List.filter_cons, hne, ih]
    · simp [hk, ih]

/-- A key bound in the map has a `some` lookup. -/
theorem dictLookup_isSome_of_mem {α : Type} (m : List (List Nat × α))
    (bid : List Nat) (g : α) (h : (bid, g) ∈ m) :
    (dictLookup m bid).isSome = true := by
  have : (m.find? (fun kv => kv.1 = bid)).isSome = true :=
    List.find?_isSome.mpr ⟨(bid, g), h, by simp⟩
  simpa [dictLookup] using this

/-- C2: the diff applies existence-change before playable-change before
last-played-change, with at most one event per refreshed id (keys of a
refreshed dict are unique): an id new in the refreshed map and already
playable emits exactly one `Installed` event — never a compound
`Installed|Running` or a begin-install event — and schedules no watch; an id
present in both maps whose playable flag turned true emits a single
`Installed` event and schedules no watch, even when `last_played` also
changed. -/
theorem C2_diff_precedence :
    (∀ refreshed previous bid g,
      (refreshed.map Prod.fst).Nodup →
      (bid, g) ∈ refreshed →
      dictLookup previous bid = none →
      g.playable = true →
      ((updateStatuses refreshed previous).1.filter (fun ev => ev.1 = bid)
          = [(bid, GState.installed)]
        ∧ bid ∉ (updateStatuses refreshed previous).2))
    ∧ (∀ refreshed previous bid g prev,
      (refreshed.map Prod.fst).Nodup →
      (bid, g) ∈ refreshed →
      dictLookup previous bid = some prev →
      g.playable = true → prev.playable = false →
      ((updateStatuses refreshed previous).1.filter (fun ev => ev.1 = bid)
          = [(bid, GState.installed)]
        ∧ bid ∉ (updateStatuses refreshed previous).2)) := by
  constructor
  · intro refreshed previous bid g hnd hmem hprev hp
    obtain ⟨l1, l2⟩ := updateLoop1_filter_mem previous bid g refreshed hnd hmem
    have hsome := dictLookup_isSome_of_mem refreshed bid g hmem
    have h2 := updateLoop2_filter refreshed bid hsome previous
    constructor
    · simp only [updateStatuses, List.filter_append, l1, h2, List.append_nil]
      rw [entryEvents, hprev]
      simp [hp]
    · simp only [updateStatuses]
      intro hcontra
      have hmf : bid ∈ (updateLoop1 previous refreshed).2.filter
          (fun k => k = bid) :=
        List.mem_filter.mpr ⟨hcontra, by simp⟩
      rw [l2, entryWatches, hprev] at hmf
      simp at hmf
  · intro refreshed previous bid g prev hnd hmem hprev hp hpp
    obtain ⟨l1, l2⟩ := updateLoop1_filter_mem previous bid g refreshed hnd hmem
    have hsome := dictLookup_isSome_of_mem refreshed bid g hmem
    have h2 := updateLoop2_filter refreshed bid hsome previous
    constructor
    · simp only [updateStatuses, List.filter_append, l1, h2, List.append_nil]
      rw [entryEvents, hprev]
      simp [hp, hpp]
    · simp only [updateStatuses]
      intro hcontra
      have hmf : bid ∈ (updateLoop1 previous refreshed).2.filter
          (fun k => k = bid) :=
        List.mem_filter.mpr ⟨hcontra, by simp⟩
      rw [l2, entryWatches, hprev] at hmf
      simp [hp, hpp] at hmf

/-- A playable StarCraft entry with a fresh last-played value. -/
def gameS1New : InstalledGame :=
  ⟨⟨utf8 "s1", utf8 "StarCraft", utf8 "21297", utf8 "S1"⟩,
   .str (utf8 "T1"), utf8 "1.0", .str (utf8 "t1"), utf8 "/p", [], []⟩

/-- The same entry before the refresh: not yet playable, older last-played
value. -/
def gameS1Old : InstalledGame :=
  ⟨⟨utf8 "s1", utf8 "StarCraft", utf8 "21297", utf8 "S1"⟩,
   .str (utf8 "T1"), [], .str (utf8 "t0"), utf8 "/p", [], []⟩

/-- C2 (witness): the spec's scenario — empty previous map, refresh
introduces a playable `21297` → one `Installed` event, no watch; and the
playable-flip scenario where `last_played` changed too → still a single
`Installed` event, no watch. -/
theorem C2_diff_precedence_witness :
    ((updateStatuses [(utf8 "21297", gameS1New)] []).1.filter
        (fun ev => ev.1 = utf8 "21297") = [(utf8 "21297", GState.installed)]
      ∧ utf8 "21297" ∉ (updateStatuses [(utf8 "21297", gameS1New)] []).2)
    ∧ ((updateStatuses [(utf8 "21297", gameS1New)]
          [(utf8 "21297", gameS1Old)]).1.filter
        (fun ev => ev.1 = utf8 "21297") = [(utf8 "21297", GState.installed)]
      ∧ utf8 "21297" ∉ (updateStatuses [(utf8 "21297", gameS1New)]
          [(utf8 "21297", gameS1Old)]).2) :=
  ⟨C2_diff_precedence.1 [(utf8 "21297", gameS1New)] [] (utf8 "21297")
      gameS1New (by simp) (List.mem_singleton.mpr rfl) rfl rfl,
   C2_diff_precedence.2 [(utf8 "21297", gameS1New)]
      [(utf8 "21297", gameS1Old)] (utf8 "21297") gameS1New gameS1Old
      (by simp) (List.mem_singleton.mpr rfl) rfl rfl rfl⟩

/-! ## Running-state watch (`plugin.py::_notify_about_game_stop`) -/

/-- The entry of `_notify_about_game_stop`: a game id already in
`watched_running_games` returns immediately (no second watch); otherwise the
id is added to the watched set and the watch proceeds (`true` = a watch was
started). -/
def notifyEnter (watched : List (List Nat)) (bid : List Nat) :
    List (List Nat) × Bool :=
  if bid ∈ watched then (watched, false) else (watched ++ [bid], true)

/-- The `finally` block of `_notify_about_game_stop`, run when a started
watch terminates (normally or not): emit the revert-to-`Installed` event and
remove the id from the watched set. -/
def notifyFinally (watched : List (List Nat)) (bid : List Nat) :
    List (List Nat) × List (List Nat × GState) :=
  (watched.erase bid, [(bid, GState.installed)])

/-- C7: at most one running-state watch is in flight per game id — starting
a watch for an id already in the watched set returns immediately without
creating a second watch; starting one for a fresh id marks it watched, so an
immediately following second start is skipped; and every terminating watch
emits the revert-to-`Installed` event and removes its id from the watched
set. -/
theorem C7_watch_dedup :
    (∀ w bid, bid ∈ w → notifyEnter w bid = (w, false))
    ∧ (∀ w bid, bid ∉ w →
        (notifyEnter w bid).2 = true
        ∧ bid ∈ (notifyEnter w bid).1
        ∧ (notifyEnter (notifyEnter w bid).1 bid).2 = false)
    ∧ (∀ w bid, w.Nodup →
        bid ∉ (notifyFinally w bid).1
        ∧ (notifyFinally w bid).2 = [(bid, GState.installed)]) := by
  refine ⟨?_, ?_, ?_⟩
  · intro w bid h
    simp [notifyEnter, h]
  · intro w bid h
    refine ⟨by simp [notifyEnter, h], by simp [notifyEnter, h], ?_⟩
    simp [notifyEnter, h]
  · intro w bid hnd
    refine ⟨?_, rfl⟩
    intro hmem
    rw [notifyFinally] at hmem
    exact (hnd.mem_erase_iff.mp hmem).1 rfl

/-- C7 (witness): concrete runs — a watch for `21297` while it is already
watched is skipped; a watch for `21297` on the empty watched set starts,
marks it watched and deduplicates a second start; its termination reverts to
`Installed` and unmarks the id. -/
theorem C7_watch_dedup_witness :
    notifyEnter [utf8 "21297"] (utf8 "21297") = ([utf8 "21297"], false)
    ∧ ((notifyEnter [] (utf8 "21297")).2 = true
      ∧ utf8 "21297" ∈ (notifyEnter [] (utf8 "21297")).1
      ∧ (notifyEnter (notifyEnter [] (utf8 "21297")).1 (utf8 "21297")).2 = false)
    ∧ (utf8 "21297" ∉ (notifyFinally [utf8 "21297"] (utf8 "21297")).1
      ∧ (notifyFinally [utf8 "21297"] (utf8 "21297")).2 =
          [(utf8 "21297", GState.installed)]) :=
  ⟨C7_watch_dedup.1 [utf8 "21297"] (utf8 "21297") (List.mem_singleton.mpr rfl),
   C7_watch_dedup.2.1 [] (utf8 "21297") (List.not_mem_nil _),
   C7_watch_dedup.2.2 [utf8 "21297"] (utf8 "21297") (List.nodup_singleton _)⟩

/-! ## Process correlator (`process.py`, `game.py::add_process`) -/

/-- `InstalledGame.add_process`: inspect the live executable path
(`process.exe()`, which itself can raise) and either bind the process to the
game's `_processes` set or raise `ValueError` when the path is not in the
game's executable set. -/
def InstalledGame.add_process (g : InstalledGame) (p : ProcModel) :
    Except PyErr InstalledGame :=
  match p.exeLive with
  | .error e => .error e
  | .ok path =>
    if path ∈ g.execs then .ok { g with processes := setAdd g.processes p }
    else .error .valueError

/-- The inner `for game in games` loop of
`ProcessProvider.update_games_processes` for one enumerated process: bind it
to every game whose executable set contains the snapshot path, collecting the
matched game ids; an exception from `add_process` aborts immediately. -/
def updateGameLoop (p : ProcModel) :
    List InstalledGame → Except PyErr (List InstalledGame × List (List Nat))
  | [] => .ok ([], [])
  | g :: rest =>
    if p.exeInfo ∈ g.execs then
      match g.add_process p with
      | .error e => .error e
      | .ok g' =>
        match updateGameLoop p rest with
        | .error e => .error e
        | .ok (gs, ids) => .ok (g' :: gs, g.info.blizzard_id :: ids)
    else
      match updateGameLoop p rest with
      | .error e => .error e
      | .ok (gs, ids) => .ok (g :: gs, ids)

/-- The outer `for proc in psutil.process_iter(...)` loop, threading the
games (mutated in place in the source) and the `running_games` set. -/
def updateProcsLoop :
    List ProcModel → List InstalledGame → List (List Nat) →
    Except PyErr (List InstalledGame × List (List Nat))
  | [], games, running => .ok (games, running)
  | p :: rest, games, running =>
    match updateGameLoop p games with
    | .error e => .error e
    | .ok (games', ids) => updateProcsLoop rest games' (ids.foldl setAdd running)

/-- `ProcessProvider.update_games_processes`: scan the enumerated process
table against the installed games, returning the updated games and the set
of blizzard ids with a matched process — or the exception that aborted the
scan. -/
def updateGamesProcesses (procs : List ProcModel)
    (games : List InstalledGame) :
    Except PyErr (List InstalledGame × List (List Nat)) :=
  updateProcsLoop procs games []

/-- What one process does to one game when its live path equals its
enumerated path: bind when matched, leave alone otherwise. -/
def updProc (p : ProcModel) (g : InstalledGame) : InstalledGame :=
  if p.exeInfo ∈ g.execs then { g with processes := setAdd g.processes p }
  else g

/-- Binding does not change the game's identity. -/
theorem updProc_info (p : ProcModel) (g : InstalledGame) :
    (updProc p g).info = g.info := by
  rw [updProc]; split <;> rfl

/-- Binding does not change the game's executable set. -/
theorem updProc_execs (p : ProcModel) (g : InstalledGame) :
    (updProc p g).execs = g.execs := by
  rw [updProc]; split <;> rfl

/-- `set.add` membership. -/
theorem mem_setAdd {α : Type} [DecidableEq α] (s : List α) (x y : α) :
    y ∈ setAdd s x ↔ y ∈ s ∨ y = x := by
  by_cases h : x ∈ s
  · rw [setAdd, if_pos h]
    constructor
    · exact Or.inl
    · rintro (h1 | rfl)
      · exact h1
      · exact h
  · rw [setAdd, if_neg h]
    simp

/-- Accumulated `set.add` membership. -/
theorem mem_foldl_setAdd {α : Type} [DecidableEq α] (y : α) :
    ∀ (l s : List α), y ∈ l.foldl setAdd s ↔ y ∈ s ∨ y ∈ l := by
  intro l
  induction l with
  | nil => intro s; simp
  | cons x rest ih =>
    intro s
    rw [List.foldl_cons, ih, mem_setAdd]
    simp only [List.mem_cons]
    tauto

/-- When every enumerated process's live inspection succeeds and agrees with
the snapshot path, the per-process loop never raises: it binds the process to
every matching game and returns exactly the matched ids. -/
theorem updateGameLoop_ok (p : ProcModel)
    (hp : p.exeLive = Except.ok p.exeInfo) :
    ∀ games, updateGameLoop p games =
      Except.ok (games.map (updProc p),
        (games.filter (fun g => p.exeInfo ∈ g.execs)).map
          (fun g => g.info.blizzard_id)) := by
  intro games
  induction games with
  | nil => rfl
  | cons g rest ih =>
    rw [updateGameLoop]
    by_cases h : p.exeInfo ∈ g.execs
    · rw [if_pos h]
      have hadd : g.add_process p =
          Except.ok { g with processes := setAdd g.processes p } := by
        rw [InstalledGame.add_process, hp]
        simp [h]
      rw [hadd, ih]
      simp [updProc, h, List.filter_cons]
    · rw [if_neg h, ih]
      simp [updProc, h, List.filter_cons]

/-- The scan invariant: with live inspections succeeding and distinct game
ids, the loop succeeds and an id ends up in the running set exactly when it
was there already or some process matches that game's executable set. -/
theorem updateProcsLoop_spec :
    ∀ procs, (∀ p ∈ procs, p.exeLive = Except.ok p.exeInfo) →
    ∀ games running,
      (games.map (fun g => g.info.blizzard_id)).Nodup →
      ∃ games' ids, updateProcsLoop procs games running = Except.ok (games', ids)
        ∧ ∀ g ∈ games, (g.info.blizzard_id ∈ ids ↔
            g.info.blizzard_id ∈ running ∨ ∃ p ∈ procs, p.exeInfo ∈ g.execs) := by
  intro procs
  induction procs with
  | nil =>
    intro _ games running _
    exact ⟨games, running, rfl, fun g _ => by simp⟩
  | cons p rest ih =>
    intro hall games running hnd
    have hp := hall p (List.mem_cons_self ..)
    have hrest : ∀ q ∈ rest, q.exeLive = Except.ok q.exeInfo :=
      fun q hq => hall q (List.mem_cons_of_mem _ hq)
    rw [updateProcsLoop, updateGameLoop_ok p hp]
    have hids : (games.map (updProc p)).map (fun g => g.info.blizzard_id)
        = games.map (fun g => g.info.blizzard_id) := by
      rw [List.map_map]
      exact List.map_congr_left (fun g _ => by
        simp [Function.comp, updProc_info])
    obtain ⟨games', ids, heq, hiff⟩ := ih hrest (games.map (updProc p))
      (((games.filter (fun g => p.exeInfo ∈ g.execs)).map
        (fun g => g.info.blizzard_id)).foldl setAdd running)
      (by rw [hids]; exact hnd)
    refine ⟨games', ids, heq, ?_⟩
    intro g hg
    have hg' : updProc p g ∈ games.map (updProc p) :=
      List.mem_map_of_mem _ hg
    have h1 := hiff (updProc p g) hg'
    rw [updProc_info, updProc_execs] at h1
    rw [h1, mem_foldl_setAdd]
    have hadded : g.info.blizzard_id ∈
        (games.filter (fun g => p.exeInfo ∈ g.execs)).map
          (fun g => g.info.blizzard_id)
        ↔ p.exeInfo ∈ g.execs := by
      constructor
      · intro hmem
        obtain ⟨g2, hg2mem, hg2id⟩ := List.mem_map.mp hmem
        rw [List.mem_filter] at hg2mem
        obtain ⟨hg2in, hg2match⟩ := hg2mem
        have hgg : g2 = g := List.inj_on_of_nodup_map hnd hg2in hg hg2id
        rw [hgg] at hg2match
        exact of_decide_eq_true hg2match
      · intro hmatch
        exact List.mem_map_of_mem _
          (List.mem_filter.mpr ⟨hg, decide_eq_true hmatch⟩)
    rw [hadded]
    simp only [List.mem_cons, exists_eq_or_imp]
    tauto

/-- An installed StarCraft whose executable set is `{/a/b.exe}`. -/
def gameA : InstalledGame :=
  ⟨⟨utf8 "s1", utf8 "StarCraft", utf8 "21297", utf8 "S1"⟩,
   .str (utf8 "T1"), utf8 "1.0", .null, utf8 "/p", [utf8 "/a/b.exe"], []⟩

/-- An installed StarCraft II whose executable set is `{/c/d.exe}`. -/
def gameB : InstalledGame :=
  ⟨⟨utf8 "s2", utf8 "StarCraft II", utf8 "21298", utf8 "S2"⟩,
   .str (utf8 "T2"), utf8 "1.0", .null, utf8 "/q", [utf8 "/c/d.exe"], []⟩

/-- A process whose enumerated path matches `gameA` but which vanished
before the live `process.exe()` inspection. -/
def procVanished : ProcModel := ⟨utf8 "/a/b.exe", .error .noSuchProcess⟩

/-- A live process matching `gameB`. -/
def procLive : ProcModel := ⟨utf8 "/c/d.exe", .ok (utf8 "/c/d.exe")⟩

/-- A live process matching `gameA`. -/
def procMatch : ProcModel := ⟨utf8 "/a/b.exe", .ok (utf8 "/a/b.exe")⟩

/-- C8 (counterexample): a process that vanished between enumeration and
inspection raises `NoSuchProcess` out of `add_process` inside the scan, so
`update_games_processes` aborts: the second, live process matching `gameB`
is never scanned and no id set is returned — the failure is not swallowed
per-process. -/
theorem C8_counterexample_vanished_aborts :
    updateGamesProcesses [procVanished, procLive] [gameA, gameB] =
      Except.error PyErr.noSuchProcess := rfl

/-- C8 (amended): per-process failures are swallowed only at enumeration
time (the `attrs` snapshot with `ad_value` never raises); when every
enumerated process's live inspection succeeds and agrees with its snapshot
path — i.e. no process vanishes or denies access between enumeration and
inspection — the scan returns, for games with distinct ids, exactly the set
of ids of every game with a matched process; but a live-inspection failure
inside `add_process` aborts the scan of the remaining processes. -/
theorem C8_amended_scan :
    ∀ procs games,
      (∀ p ∈ procs, p.exeLive = Except.ok p.exeInfo) →
      (games.map (fun g => g.info.blizzard_id)).Nodup →
      ∃ games' ids,
        updateGamesProcesses procs games = Except.ok (games', ids)
        ∧ ∀ g ∈ games,
            (g.info.blizzard_id ∈ ids ↔ ∃ p ∈ procs, p.exeInfo ∈ g.execs) := by
  intro procs games hall hnd
  obtain ⟨games', ids, heq, hiff⟩ := updateProcsLoop_spec procs hall games [] hnd
  exact ⟨games', ids, heq, fun g hg => by rw [hiff g hg]; simp⟩

/-- C8 (witness): the amended scan at a concrete input — one live process
matching `gameB`, none matching `gameA`. -/
theorem C8_amended_scan_witness :
    ∃ games' ids,
      updateGamesProcesses [procLive] [gameA, gameB] = Except.ok (games', ids)
      ∧ ∀ g ∈ [gameA, gameB],
          (g.info.blizzard_id ∈ ids ↔ ∃ p ∈ [procLive], p.exeInfo ∈ g.execs) :=
  C8_amended_scan [procLive] [gameA, gameB]
    (by
      intro p hp
      rw [List.mem_singleton] at hp
      subst hp
      rfl)
    (by decide)

/-- C9: with the live executable inspection succeeding,
`InstalledGame.add_process` raises `ValueError` exactly when the process's
executable path is not a member of the game's executable set; when it is a
member, the process is added to the game's binding set and no error is
raised. -/
theorem C9_add_process_contract :
    ∀ (g : InstalledGame) (p : ProcModel) path,
      p.exeLive = Except.ok path →
      ((g.add_process p = Except.error PyErr.valueError ↔ path ∉ g.execs)
        ∧ (path ∈ g.execs → ∃ g', g.add_process p = Except.ok g'
            ∧ p ∈ g'.processes ∧ g'.info = g.info ∧ g'.execs = g.execs)) := by
  intro g p path hlive
  constructor
  · constructor
    · intro herr hmem
      rw [InstalledGame.add_process, hlive] at herr
      dsimp only at herr
      rw [if_pos hmem] at herr
      exact absurd herr (by simp)
    · intro hnot
      rw [InstalledGame.add_process, hlive]
      dsimp only
      rw [if_neg hnot]
  · intro hmem
    refine ⟨{ g with processes := setAdd g.processes p }, ?_, ?_, rfl, rfl⟩
    · rw [InstalledGame.add_process, hlive]
      dsimp only
      rw [if_pos hmem]
    · show p ∈ setAdd g.processes p
      rw [mem_setAdd]
      exact Or.inr rfl

/-- C9 (witness): the binding contract at a concrete game and live process
whose path `/a/b.exe` is in the game's executable set. -/
theorem C9_add_process_contract_witness :
    (gameA.add_process procMatch = Except.error PyErr.valueError
        ↔ utf8 "/a/b.exe" ∉ gameA.execs)
    ∧ (utf8 "/a/b.exe" ∈ gameA.execs →
        ∃ g', gameA.add_process procMatch = Except.ok g'
          ∧ procMatch ∈ g'.processes ∧ g'.info = gameA.info
          ∧ g'.execs = gameA.execs) :=
  C9_add_process_contract gameA procMatch (utf8 "/a/b.exe") rfl
